import Mathlib

/-!
Verification of the GCOOS/gdamm trajectory pipeline.

This development gives a shallow embedding of the core data pipeline of the
repository: the WKT LineString geometry codec (`points_to_linestring` in
`json2duckdb.py` / `gdamm_gdac.py`, `parse_linestring` in `create_map.py` /
`gdamm_map.py`), the GeoJSON point filtering and timestamp sort
(`parse_geojson`), the deployment store and ingest logic (`check_existing`,
`handle_existing`, `import_deployment`, `import_directory`), and the render
color assignment (`generate_year_colors`).

Python strings are modelled as `List Char` wherever character-level behavior
matters (the codec), and as `String` for opaque identifiers and timestamps.
Python floats are modelled parametrically: the codec takes a coordinate type
`α` together with a rendering function `toStr : α → List Char` (Python's
f-string formatting of a float) and a parsing function
`pf : List Char → Option α` (Python's `float()` constructor, `none` meaning
it raises `ValueError`).  Facts about the real float formatter (its output is
nonempty, contains no whitespace and no comma, and parses back to the same
value) appear as hypotheses where a claim needs them.
-/

namespace Gdamm

/-! ### Python string primitives -/

/-- The whitespace characters stripped by Python's `str.strip()`
(restricted to the ASCII range). -/
def isSpace (c : Char) : Bool :=
  c = ' ' || c = '\t' || c = '\n' || c = '\r' || c = '\x0b' || c = '\x0c'

/-- Python `str.strip()`: remove leading and trailing whitespace. -/
def strip (s : List Char) : List Char :=
  ((s.dropWhile isSpace).reverse.dropWhile isSpace).reverse

/-- Core loop of Python `str.split(sep)` for a non-empty separator
`s0 :: sep`: scan left to right, cutting at each non-overlapping occurrence
of the separator.  `acc` holds the current chunk, reversed. -/
def splitGo (s0 : Char) (sep : List Char) : List Char → List Char → List (List Char)
  | [], acc => [acc.reverse]
  | c :: rest, acc =>
    if (s0 :: sep).isPrefixOf (c :: rest) then
      acc.reverse :: splitGo s0 sep (rest.drop sep.length) []
    else
      splitGo s0 sep rest (c :: acc)
  termination_by l _ => l.length
  decreasing_by
    · simp only [List.length_drop, List.length_cons]; omega
    · simp only [List.length_cons]; omega

/-- Python `str.split(sep)` for the non-empty separator `s0 :: sep`.
Like Python (and unlike `String.splitOn` on edge cases we do not rely on),
`splitGo` keeps empty chunks and maps the empty string to `[""]`. -/
def splitOnSep (s0 : Char) (sep : List Char) (s : List Char) : List (List Char) :=
  splitGo s0 sep s []

/-- Python `sep.join(tokens)`. -/
def joinSep (sep : List Char) : List (List Char) → List Char
  | [] => []
  | [t] => t
  | t :: u :: ts => t ++ sep ++ joinSep sep (u :: ts)

/-- Python string comparison (`<` and `sorted`) restricted to `≤`:
lexicographic by code point. -/
def lexLe : List Char → List Char → Bool
  | [], _ => true
  | _ :: _, [] => false
  | c :: cs, d :: ds =>
    if c.toNat < d.toNat then true
    else if d.toNat < c.toNat then false
    else lexLe cs ds

/-- ASCII decimal digit test (the `\d` of the filename pattern and the digits
accepted by `int()` on the inputs this pipeline sees). -/
def isDigitCh (c : Char) : Bool := '0' ≤ c && c ≤ '9'

/-- Numeric value of a list of decimal digit characters. -/
def digitsToNat (cs : List Char) : Nat :=
  cs.foldl (fun a c => 10 * a + (c.toNat - 48)) 0

/-- Models Python `int()` on a plain decimal string (an optional leading
minus sign followed by digits); `none` models a raised `ValueError`. -/
def parse_int (s : String) : Option Int :=
  match s.data with
  | [] => none
  | '-' :: rest =>
    if !rest.isEmpty && rest.all isDigitCh then some (-(digitsToNat rest : Int)) else none
  | cs => if cs.all isDigitCh then some ((digitsToNat cs : Int)) else none

/-! ### Data model -/

/-- One retained sample: `{'lon': .., 'lat': .., 'time': ..}` as built in
`parse_geojson`. -/
structure Pt (α : Type) where
  lon : α
  lat : α
  time : String
deriving DecidableEq

/-- One GeoJSON feature, reduced to the fields `parse_geojson` reads:
whether `geometry.type == 'Point'`, the `geometry.coordinates` array, and the
`properties.time` value (`none` when the key is absent). -/
structure Feature (α : Type) where
  isPoint : Bool
  coords : List α
  time : Option String
deriving DecidableEq

/-- Ordering of samples used by `points.sort(key=lambda p: p['time'])`:
lexical (string) comparison of the timestamp values. -/
def timeLE {α : Type} (p q : Pt α) : Prop := lexLe p.time.data q.time.data = true

instance {α : Type} : DecidableRel (timeLE (α := α)) :=
  fun p q => inferInstanceAs (Decidable (lexLe p.time.data q.time.data = true))

instance {α : Type} : IsTotal (Pt α) timeLE := by
  constructor
  intro p q
  show lexLe p.time.data q.time.data = true ∨ lexLe q.time.data p.time.data = true
  generalize p.time.data = x
  generalize q.time.data = y
  induction x generalizing y with
  | nil => exact Or.inl rfl
  | cons c cs ih =>
    cases y with
    | nil => exact Or.inr rfl
    | cons d ds =>
      by_cases h1 : c.toNat < d.toNat
      · exact Or.inl (by simp [lexLe, h1])
      · by_cases h2 : d.toNat < c.toNat
        · exact Or.inr (by simp [lexLe, h2])
        · rcases ih ds with h | h
          · exact Or.inl (by simp [lexLe, h1, h2, h])
          · exact Or.inr (by simp [lexLe, h1, h2, h])

instance {α : Type} : IsTrans (Pt α) timeLE := by
  constructor
  intro p q r
  show lexLe p.time.data q.time.data = true →
    lexLe q.time.data r.time.data = true → lexLe p.time.data r.time.data = true
  generalize p.time.data = x
  generalize q.time.data = y
  generalize r.time.data = z
  induction x generalizing y z with
  | nil => intro _ _; rfl
  | cons c cs ih =>
    cases y with
    | nil => intro h; simp [lexLe] at h
    | cons d ds =>
      cases z with
      | nil => intro _ h; simp [lexLe] at h
      | cons e es =>
        intro h1 h2
        simp only [lexLe] at h1 h2 ⊢
        split at h1
        · rename_i hcd
          split at h2
          · rename_i hde; simp [show c.toNat < e.toNat by omega]
          · split at h2
            · simp_all
            · rename_i hde hed
              simp [show c.toNat < e.toNat by omega]
        · split at h1
          · simp_all
          · rename_i hcd hdc
            split at h2
            · rename_i hde
              simp [show c.toNat < e.toNat by omega]
            · split at h2
              · simp_all
              · rename_i hde hed
                have hce : ¬ c.toNat < e.toNat := by omega
                have hec : ¬ e.toNat < c.toNat := by omega
                simp only [if_neg hce, if_neg hec]
                exact ih ds es h1 h2

/-! ### GeometryCodec -/

/-- `points_to_linestring` (identical in `json2duckdb.py` lines 71-77 and
`gdamm_gdac.py` lines 85-91): `None` for fewer than 2 points, otherwise the
WKT text `LINESTRING(lon1 lat1, lon2 lat2, ...)` with each coordinate
rendered by `toStr` (Python's float formatting). -/
def points_to_linestring {α : Type} (toStr : α → List Char) (points : List (Pt α)) :
    Option (List Char) :=
  if points.length < 2 then none
  else some ("LINESTRING(".data ++
    joinSep (", ".data) (points.map (fun p => toStr p.lon ++ (' ' :: toStr p.lat))) ++ [')'])

/-- The token list `pair.strip().split(' ')` of `parse_linestring`. -/
def pairTokens (pair : List Char) : List (List Char) :=
  splitOnSep ' ' [] (strip pair)

/-- The loop body of `parse_linestring` over the chunks of
`coords_str.split(', ')`: chunks with fewer than 2 space-separated parts are
skipped (`if len(parts) >= 2`); otherwise `float(parts[0])`/`float(parts[1])`
are taken as lon/lat and `[lat, lon]` is appended; a failed `float()` raises,
modelled as `Except.error ()`. -/
def parsePairs {α : Type} (pf : List Char → Option α) : List (List Char) →
    Except Unit (List (α × α))
  | [] => .ok []
  | pair :: rest =>
    match pairTokens pair with
    | p0 :: p1 :: _ =>
      match pf p0 with
      | none => .error ()
      | some lon =>
        match pf p1 with
        | none => .error ()
        | some lat =>
          match parsePairs pf rest with
          | .error e => .error e
          | .ok tail => .ok ((lat, lon) :: tail)
    | _ => parsePairs pf rest

/-- `parse_linestring` (identical in `create_map.py` lines 48-63 and
`gdamm_map.py` lines 48-63).  The `none` input models a SQL NULL / Python
`None` argument (falsy, hence the empty result); for a string input the
function checks only the `LINESTRING(` prefix, slices off the first 11 and
the last character, splits on `', '` and parses each chunk. -/
def parse_linestring {α : Type} (pf : List Char → Option α) :
    Option (List Char) → Except Unit (List (α × α))
  | none => .ok []
  | some wkt =>
    if wkt.isEmpty || !(("LINESTRING(".data).isPrefixOf wkt) then .ok []
    else parsePairs pf (splitOnSep ',' [' '] ((wkt.drop 11).dropLast))

/-! ### IngestPipeline: parsing and sorting -/

/-- The filter of `parse_geojson`: a feature is kept when its geometry type
is `Point`, it has at least two coordinates, and `properties.time` is a
truthy (present, non-empty) string; the kept sample takes
`lon = coords[0]`, `lat = coords[1]`. -/
def featPoint {α : Type} (f : Feature α) : Option (Pt α) :=
  if f.isPoint then
    match f.coords, f.time with
    | lon :: lat :: _, some t => if t = "" then none else some ⟨lon, lat, t⟩
    | _, _ => none
  else none

/-- `parse_geojson` (identical in `json2duckdb.py` lines 46-68 and
`gdamm_gdac.py` lines 60-82), pure part: keep the valid point features in
order, then sort by timestamp.  Python's `list.sort` is documented stable;
insertion sort on `timeLE` is the matching stable sort. -/
def parse_geojson {α : Type} (feats : List (Feature α)) : List (Pt α) :=
  List.insertionSort timeLE (feats.filterMap featPoint)

/-! ### Deployment store -/

/-- One row of the `deployments` table.  `geometry` is the WKT text (a
Python string, modelled at character level); `start_time` / `end_time` are
the timestamp strings passed to the INSERT (nullable columns). -/
structure Record where
  id : Nat
  name : String
  region : String
  year : Int
  start_time : Option String
  end_time : Option String
  geometry : Option (List Char)
deriving DecidableEq

/-- The store: the rows of `deployments` in insertion order, plus the next
value of the `deployments_id_seq` sequence. -/
structure DB where
  recs : List Record
  seq : Nat
deriving DecidableEq

/-- `check_existing`: `SELECT id FROM deployments WHERE name = ? AND
region = ? AND year = ?` is non-empty. -/
def check_existing (db : DB) (n r : String) (y : Int) : Bool :=
  db.recs.any (fun rec => rec.name == n && rec.region == r && rec.year == y)

/-- `DELETE FROM deployments WHERE name = ? AND region = ? AND year = ?`. -/
def deleteTriple (db : DB) (n r : String) (y : Int) : DB :=
  { db with recs :=
      db.recs.filter (fun rec => !(rec.name == n && rec.region == r && rec.year == y)) }

/-- `handle_existing` (`gdamm_gdac.py` lines 104-126): `none` models the
Python `None` return (skip, dataset already exists and `--force` not given);
`some db'` models the `True` return (proceed), with the existing record
deleted first when `force` is set. -/
def handle_existing (db : DB) (n r : String) (y : Int) (force : Bool) : Option DB :=
  if check_existing db n r y then
    if force then some (deleteTriple db n r y) else none
  else some db

/-- `INSERT INTO deployments VALUES (nextval('deployments_id_seq'), ...)`. -/
def insertRecord (db : DB) (n r : String) (y : Int)
    (st en : Option String) (geom : Option (List Char)) : DB :=
  { recs := db.recs ++ [⟨db.seq, n, r, y, st, en, geom⟩], seq := db.seq + 1 }

/-- The four outcomes `import_deployment` in `gdamm_gdac.py` reports through
its return value: `True` / `None` / `'invalid'` / `False`. -/
inductive Outcome where
  | inserted
  | skipped
  | invalid
  | failed
deriving DecidableEq

/-- The aggregate counters of `import_directory`. -/
structure Stats where
  inserted : Nat
  skipped : Nat
  invalid : Nat
  errors : Nat
deriving DecidableEq

/-- The counter update of the `import_directory` loop. -/
def bumpStats (s : Stats) : Outcome → Stats
  | .inserted => { s with inserted := s.inserted + 1 }
  | .skipped => { s with skipped := s.skipped + 1 }
  | .invalid => { s with invalid := s.invalid + 1 }
  | .failed => { s with errors := s.errors + 1 }

/-! ### Ingest, `gdamm_gdac.py` variant -/

namespace Gdac

/-- An input file as `gdamm_gdac.py` sees it: the filename stem, the parent
directory name (the region), and the parsed JSON contents — `none` when
`open` / `json.load` raises (unreadable or malformed JSON). -/
structure GFile (α : Type) where
  stem : String
  parentDir : String
  content : Option (List (Feature α))
deriving DecidableEq

/-- The fixed-length timestamp pattern `-(\d{4})(\d{4}T\d{4})$` of
`extract_metadata` in `gdamm_gdac.py`, matched against the last 14
characters of the stem. -/
def tsSuffixMatch : List Char → Bool
  | ['-', a, b, c, d, e, f, g, h, 'T', i, j, k, l] =>
    [a, b, c, d, e, f, g, h, i, j, k, l].all isDigitCh
  | _ => false

/-- `extract_metadata` (`gdamm_gdac.py` lines 35-57): `None` unless the stem
ends in `-YYYYMMDDTHHMM`; the year is the first 4-digit group, the name the
full stem, the region the parent directory name. -/
def extract_metadata (stem parentDir : String) : Option (String × String × Int) :=
  let suf := stem.data.drop (stem.data.length - 14)
  if tsSuffixMatch suf then
    some (stem, parentDir, ((digitsToNat ((suf.drop 1).take 4) : Nat) : Int))
  else none

/-- `import_deployment` (`gdamm_gdac.py` lines 129-162).  The `Except` layer
models uncaught Python exceptions (a file whose contents cannot be read or
parsed); the `Outcome` is the function's return value. -/
def import_deployment {α : Type} (toStr : α → List Char) (db : DB) (f : GFile α)
    (force : Bool) : Except Unit (Outcome × DB) :=
  match extract_metadata f.stem f.parentDir with
  | none => .ok (.invalid, db)
  | some (name, region, year) =>
    match handle_existing db name region year force with
    | none => .ok (.skipped, db)
    | some db1 =>
      match f.content with
      | none => .error ()
      | some feats =>
        match parse_geojson feats with
        | [] => .ok (.failed, db1)
        | p0 :: rest =>
          .ok (.inserted, insertRecord db1 name region year
            (some p0.time) (some (((p0 :: rest).getLastD p0).time))
            (points_to_linestring toStr (p0 :: rest)))

/-- The per-file loop of `import_directory` (`gdamm_gdac.py` lines 179-210)
with its running counters; an exception escaping `import_deployment`
propagates and ends the loop. -/
def importFiles {α : Type} (toStr : α → List Char) (force : Bool) :
    DB → Stats → List (GFile α) → Except Unit (Stats × DB)
  | db, s, [] => .ok (s, db)
  | db, s, f :: fs =>
    match import_deployment toStr db f force with
    | .error e => .error e
    | .ok (o, db') => importFiles toStr force db' (bumpStats s o) fs

/-- `import_directory`, restricted to its per-file loop and aggregation (the
empty-directory early return and the printed summary are I/O around it). -/
def import_directory {α : Type} (toStr : α → List Char) (db : DB)
    (files : List (GFile α)) (force : Bool) : Except Unit (Stats × DB) :=
  importFiles toStr force db ⟨0, 0, 0, 0⟩ files

end Gdac

/-! ### Ingest, `json2duckdb.py` variant -/

namespace J2D

/-- An input file as `json2duckdb.py` sees it: path structure
`.../data/{region}/{year}/{name}.json` plus the parsed JSON contents
(`none` when `open` / `json.load` raises). -/
structure JFile (α : Type) where
  stem : String
  yearDir : String
  regionDir : String
  content : Option (List (Feature α))
deriving DecidableEq

/-- `extract_metadata` (`json2duckdb.py` lines 34-43): the name is the stem,
the year is `int(path.parent.name)` (an exception when the directory name is
not an integer), the region the grandparent directory name. -/
def extract_metadata {α : Type} (f : JFile α) : Except Unit (String × String × Int) :=
  match parse_int f.yearDir with
  | none => .error ()
  | some y => .ok (f.stem, f.regionDir, y)

/-- `import_deployment` (`json2duckdb.py` lines 89-130).  The return value
`Option Bool` mirrors the Python `True` (inserted) / `None` (skipped) /
`False` (no valid points); the conflict handling is the same logic as
`handle_existing`, inlined in the source. -/
def import_deployment {α : Type} (toStr : α → List Char) (db : DB) (f : JFile α)
    (force : Bool) : Except Unit (Option Bool × DB) :=
  match extract_metadata f with
  | .error e => .error e
  | .ok (name, region, year) =>
    match handle_existing db name region year force with
    | none => .ok (none, db)
    | some db1 =>
      match f.content with
      | none => .error ()
      | some feats =>
        match parse_geojson feats with
        | [] => .ok (some false, db1)
        | p0 :: rest =>
          .ok (some true, insertRecord db1 name region year
            (some p0.time) (some (((p0 :: rest).getLastD p0).time))
            (points_to_linestring toStr (p0 :: rest)))

end J2D

/-! ### RenderPipeline: color assignment -/

/-- The fixed colorblind-friendly palette (Wong 2011) of `create_map.py` /
`gdamm_map.py`. -/
def COLORBLIND_PALETTE : List String :=
  ["#0072B2", "#D55E00", "#009E73", "#CC79A7", "#F0E442", "#56B4E9", "#E69F00"]

/-- `COLORBLIND_PALETTE[i % len(COLORBLIND_PALETTE)]`. -/
def paletteColor (i : Nat) : String :=
  COLORBLIND_PALETTE.get ⟨i % COLORBLIND_PALETTE.length, Nat.mod_lt _ (by decide)⟩

/-- `generate_year_colors` (`gdamm_map.py` lines 25-31): sort the years
ascending and map the year at sorted index `i` to palette entry `i mod 7`.
The input list is the iteration order of the Python set of years; the dict
is modelled as the association list of its insertions (keys are distinct
because the input is a set). -/
def generate_year_colors (years : List Int) : List (Int × String) :=
  (List.insertionSort (fun a b : Int => a ≤ b) years).enum.map
    (fun p => (p.2, paletteColor p.1))

/-- `year_colors.get(year, '#999999')` in `add_deployment_track`
(`gdamm_map.py` line 115). -/
def colorFor (colors : List (Int × String)) (y : Int) : String :=
  (colors.lookup y).getD "#999999"

/-! ### Specification-side definitions and concrete instantiations -/

/-- Written from the specification's words for the encoder, to be compared
with `points_to_linestring`: serialize each coordinate pair as
`"<lon> <lat>"`, join the pairs with `", "`, wrap the whole sequence in the
`LINESTRING(...)` envelope. -/
def encodeSpec {α : Type} (toStr : α → List Char) (points : List (Pt α)) : List Char :=
  "LINESTRING(".data ++
    joinSep (", ".data) (points.map (fun p => toStr p.lon ++ (' ' :: toStr p.lat))) ++ [')']

/-- A well-behaved rendered coordinate token: nonempty, no whitespace, no
comma.  Python's float formatting always satisfies this. -/
def goodTok (t : List Char) : Bool :=
  !t.isEmpty && t.all (fun c => !isSpace c && c != ',')

/-- A sample whose coordinates render to well-behaved tokens that parse back
to the same values — the properties of Python's float repr/parse round-trip
used by the codec round-trip. -/
def GoodPt {α : Type} (toStr : α → List Char) (pf : List Char → Option α)
    (p : Pt α) : Prop :=
  goodTok (toStr p.lon) = true ∧ goodTok (toStr p.lat) = true ∧
    pf (toStr p.lon) = some p.lon ∧ pf (toStr p.lat) = some p.lat

instance {α : Type} [DecidableEq α] (toStr : α → List Char) (pf : List Char → Option α)
    (p : Pt α) : Decidable (GoodPt toStr pf p) := by
  unfold GoodPt
  infer_instance

/-- A chunk of the decoder input that raises: it splits into at least two
tokens and one of the first two fails to parse as a float. -/
def pairBad {α : Type} (pf : List Char → Option α) (pair : List Char) : Bool :=
  match pairTokens pair with
  | p0 :: p1 :: _ => (pf p0).isNone || (pf p1).isNone
  | _ => false

/-- The coordinate pair a decoder chunk contributes when it parses: the
first two tokens as lon/lat, emitted in `(lat, lon)` order; `none` when the
chunk has fewer than two tokens (skipped) or a token fails. -/
def pairVal {α : Type} (pf : List Char → Option α) (pair : List Char) : Option (α × α) :=
  match pairTokens pair with
  | p0 :: p1 :: _ =>
    match pf p0, pf p1 with
    | some lon, some lat => some (lat, lon)
    | _, _ => none
  | _ => none

/-- Concrete coordinate rendering used by witnesses: natural numbers in
decimal (a subdomain of Python floats on which formatting and parsing agree
with `Nat` arithmetic). -/
def natTok (n : Nat) : List Char := Nat.toDigits 10 n

/-- Concrete coordinate parsing used by witnesses: decimal digit strings. -/
def pfNat (cs : List Char) : Option Nat :=
  if !cs.isEmpty && cs.all isDigitCh then some (digitsToNat cs) else none

/-- A stored deployment record, used by concrete scenarios. -/
def bassRecord : Record :=
  ⟨1, "bass-20250601T0000", "GoM", 2025,
    some "2025-06-01T00:00", some "2025-06-02T00:00", none⟩

/-- A store holding exactly `bassRecord`. -/
def bassDB : DB := ⟨[bassRecord], 2⟩

/-- An input file with the same identity triple as `bassRecord` whose JSON
parses to an empty feature collection (zero valid samples). -/
def bassEmptyFile : Gdac.GFile Nat := ⟨"bass-20250601T0000", "GoM", some []⟩

/-- A file whose contents cannot be read or parsed as JSON. -/
def badJsonFile : Gdac.GFile Nat := ⟨"unit-20240101T0000", "GoM", none⟩

/-- A parseable file (valid name) with zero valid samples. -/
def emptyOkFile : Gdac.GFile Nat := ⟨"pelican-20240101T0000", "GoM", some []⟩

/-- A parseable file with two valid point features in chronological order. -/
def bassTrackFile : Gdac.GFile Nat :=
  ⟨"bass-20250601T0000", "GoM",
    some [⟨true, [1, 2], some "a"⟩, ⟨true, [3, 4], some "b"⟩]⟩

/-- The store produced by ingesting `bassTrackFile` into an empty store. -/
def bassTrackDB : DB :=
  ⟨[⟨1, "bass-20250601T0000", "GoM", 2025, some "a", some "b",
      some ("LINESTRING(1 2, 3 4)".data)⟩], 2⟩

/-- A `json2duckdb.py`-layout file with exactly one valid sample. -/
def oneSampleFile : J2D.JFile Nat :=
  ⟨"bass", "2025", "GoM", some [⟨true, [10, 25], some "2025-06-01T00:00"⟩]⟩

/-- A `json2duckdb.py`-layout file with two valid samples whose timestamps
are in reverse chronological order. -/
def twoSampleFile : J2D.JFile Nat :=
  ⟨"bass", "2025", "GoM",
    some [⟨true, [1, 2], some "b"⟩, ⟨true, [3, 4], some "a"⟩]⟩

/-! ## Lemmas about the timestamp sort -/

theorem lexLe_refl (a : List Char) : lexLe a a = true := by
  induction a with
  | nil => rfl
  | cons c cs ih => simp [lexLe, ih]

theorem timeLE_of_time_eq {α : Type} {x y : Pt α} (h : x.time = y.time) : timeLE x y := by
  show lexLe _ _ = true
  rw [h]
  exact lexLe_refl _

theorem filter_orderedInsert {α : Type} (x : Pt α) (l : List (Pt α)) (t : String) :
    (List.orderedInsert timeLE x l).filter (fun p => p.time == t)
      = if x.time == t then x :: l.filter (fun p => p.time == t)
        else l.filter (fun p => p.time == t) := by
  induction l with
  | nil => cases h : x.time == t <;> simp [List.orderedInsert, List.filter, h]
  | cons y ys ih =>
    by_cases hxy : timeLE x y
    · cases h : x.time == t <;> simp [List.orderedInsert, hxy, List.filter, h]
    · have hne : (y.time == t) = true → (x.time == t) = false := by
        intro hy
        rw [beq_iff_eq] at hy
        by_contra hx
        rw [Bool.not_eq_false, beq_iff_eq] at hx
        exact hxy (timeLE_of_time_eq (by rw [hx, hy]))
      rw [show List.orderedInsert timeLE x (y :: ys)
            = y :: List.orderedInsert timeLE x ys by simp [List.orderedInsert, hxy]]
      cases hx : x.time == t with
      | true =>
        have hy : (y.time == t) = false := by
          cases hy : y.time == t with
          | true => rw [hne hy] at hx; cases hx
          | false => rfl
        simp only [List.filter, hy, ih, hx]
      | false =>
        cases hy : y.time == t <;> simp only [List.filter, hy, ih, hx] <;> simp

theorem filter_insertionSort {α : Type} (l : List (Pt α)) (t : String) :
    (List.insertionSort timeLE l).filter (fun p => p.time == t)
      = l.filter (fun p => p.time == t) := by
  induction l with
  | nil => rfl
  | cons x xs ih =>
    rw [show List.insertionSort timeLE (x :: xs)
          = List.orderedInsert timeLE x (List.insertionSort timeLE xs) from rfl]
    rw [filter_orderedInsert]
    cases h : x.time == t <;> simp [List.filter, h, ih]

/-! ## Lemmas about the split/join string primitives -/

theorem isPrefixOf_self_append (l r : List Char) : l.isPrefixOf (l ++ r) = true := by
  induction l with
  | nil => simp [List.isPrefixOf]
  | cons a as ih => simp [List.isPrefixOf, ih]

theorem splitGo_nil (s0 : Char) (sep acc : List Char) :
    splitGo s0 sep [] acc = [acc.reverse] := by
  rw [splitGo]

theorem splitGo_cons (s0 : Char) (sep : List Char) (c : Char) (rest acc : List Char) :
    splitGo s0 sep (c :: rest) acc
      = if (s0 :: sep).isPrefixOf (c :: rest) then
          acc.reverse :: splitGo s0 sep (rest.drop sep.length) []
        else splitGo s0 sep rest (c :: acc) := by
  rw [splitGo]

theorem splitGo_token (s0 : Char) (sep : List Char) (tok : List Char)
    (h : ∀ c ∈ tok, c ≠ s0) : ∀ (rest acc : List Char),
    splitGo s0 sep (tok ++ rest) acc = splitGo s0 sep rest (tok.reverse ++ acc) := by
  induction tok with
  | nil => intro rest acc; simp
  | cons c cs ih =>
    intro rest acc
    have hc : (s0 == c) = false :=
      beq_eq_false_iff_ne.mpr (fun e => h c (by simp) e.symm)
    rw [List.cons_append, splitGo_cons]
    rw [if_neg (by simp [List.isPrefixOf, hc])]
    rw [ih (fun x hx => h x (by simp [hx])) rest (c :: acc)]
    simp

theorem splitGo_sep (s0 : Char) (sep rest acc : List Char) :
    splitGo s0 sep ((s0 :: sep) ++ rest) acc = acc.reverse :: splitGo s0 sep rest [] := by
  rw [List.cons_append, splitGo_cons]
  rw [if_pos (by rw [← List.cons_append]; exact isPrefixOf_self_append _ _)]
  rw [List.drop_left]

theorem splitGo_joinSep (s0 : Char) (sep : List Char) :
    ∀ (ts : List (List Char)) (t acc : List Char),
      (∀ c ∈ t, c ≠ s0) → (∀ u ∈ ts, ∀ c ∈ u, c ≠ s0) →
      splitGo s0 sep (joinSep (s0 :: sep) (t :: ts)) acc = (acc.reverse ++ t) :: ts := by
  intro ts
  induction ts with
  | nil =>
    intro t acc ht _
    calc splitGo s0 sep (joinSep (s0 :: sep) [t]) acc
        = splitGo s0 sep (t ++ []) acc := by simp [joinSep]
      _ = splitGo s0 sep [] (t.reverse ++ acc) := splitGo_token s0 sep t ht [] acc
      _ = [(t.reverse ++ acc).reverse] := splitGo_nil s0 sep _
      _ = [acc.reverse ++ t] := by simp
  | cons u ts ih =>
    intro t acc ht hts
    rw [show joinSep (s0 :: sep) (t :: u :: ts)
          = t ++ ((s0 :: sep) ++ joinSep (s0 :: sep) (u :: ts)) by
        rw [joinSep]; rw [List.append_assoc]]
    rw [splitGo_token s0 sep t ht _ acc]
    rw [splitGo_sep]
    rw [ih u [] (hts u (by simp)) (fun v hv => hts v (by simp [hv]))]
    simp

theorem splitOnSep_joinSep (s0 : Char) (sep : List Char) (t : List Char)
    (ts : List (List Char)) (h : ∀ u ∈ t :: ts, ∀ c ∈ u, c ≠ s0) :
    splitOnSep s0 sep (joinSep (s0 :: sep) (t :: ts)) = t :: ts := by
  unfold splitOnSep
  rw [splitGo_joinSep s0 sep ts t [] (h t (by simp)) (fun u hu => h u (by simp [hu]))]
  simp

/-! ## Lemmas about strip -/

theorem dropWhile_isSpace_of_head (l : List Char)
    (h : ∀ c, l.head? = some c → isSpace c = false) :
    l.dropWhile isSpace = l := by
  cases l with
  | nil => rfl
  | cons c cs => simp [List.dropWhile, h c rfl]

theorem strip_of_ends (l : List Char)
    (h1 : ∀ c, l.head? = some c → isSpace c = false)
    (h2 : ∀ c, l.getLast? = some c → isSpace c = false) : strip l = l := by
  unfold strip
  rw [dropWhile_isSpace_of_head l h1, dropWhile_isSpace_of_head, List.reverse_reverse]
  intro c hc
  rw [List.head?_reverse] at hc
  exact h2 c hc

/-! ## Lemmas about the decoder on encoder output -/

theorem mem_of_getLast?_eq {β : Type} (l : List β) (c : β) (h : l.getLast? = some c) :
    c ∈ l := by
  induction l with
  | nil => simp at h
  | cons x xs ih =>
    cases xs with
    | nil => simp at h; simp [h]
    | cons y ys =>
      rw [List.getLast?_cons_cons] at h
      exact List.mem_cons_of_mem x (ih h)

theorem goodTok_props (t : List Char) (h : goodTok t = true) :
    t ≠ [] ∧ ∀ c ∈ t, isSpace c = false ∧ c ≠ ',' := by
  unfold goodTok at h
  rw [Bool.and_eq_true, List.all_eq_true] at h
  constructor
  · intro e
    subst e
    simp at h
  · intro c hc
    have hcc := h.2 c hc
    rw [Bool.and_eq_true] at hcc
    exact ⟨by simpa using hcc.1, by simpa using hcc.2⟩

theorem pairTokens_pair (a b : List Char) (ha : goodTok a = true) (hb : goodTok b = true) :
    pairTokens (a ++ (' ' :: b)) = [a, b] := by
  obtain ⟨hane, haP⟩ := goodTok_props a ha
  obtain ⟨hbne, hbP⟩ := goodTok_props b hb
  unfold pairTokens
  rw [strip_of_ends]
  · rw [show a ++ (' ' :: b) = joinSep (' ' :: []) (a :: [b]) by rw [joinSep]; simp [joinSep]]
    apply splitOnSep_joinSep
    intro u hu c hc e
    rcases List.mem_cons.mp hu with h | h
    · exact absurd ((haP c (h ▸ hc)).1) (by rw [e]; decide)
    · rw [List.mem_singleton] at h
      exact absurd ((hbP c (h ▸ hc)).1) (by rw [e]; decide)
  · intro c hc
    cases a with
    | nil => exact absurd rfl hane
    | cons x xs =>
      rw [List.cons_append, List.head?_cons, Option.some_inj] at hc
      exact hc ▸ (haP x (by simp)).1
  · intro c hc
    rw [List.getLast?_append] at hc
    cases b with
    | nil => exact absurd rfl hbne
    | cons y ys =>
      rw [List.getLast?_cons_cons] at hc
      cases hgl : (y :: ys).getLast? with
      | none => rw [hgl] at hc; simp at hgl
      | some d =>
        rw [hgl] at hc
        simp only [Option.or_some, Option.some_inj] at hc
        exact hc ▸ (hbP d (mem_of_getLast?_eq (y :: ys) d hgl)).1

theorem parsePairs_map {α : Type} (toStr : α → List Char) (pf : List Char → Option α) :
    ∀ (points : List (Pt α)), (∀ p ∈ points, GoodPt toStr pf p) →
    parsePairs pf (points.map (fun p => toStr p.lon ++ (' ' :: toStr p.lat)))
      = .ok (points.map (fun p => (p.lat, p.lon))) := by
  intro points
  induction points with
  | nil => intro _; rfl
  | cons p ps ih =>
    intro h
    obtain ⟨h1, h2, h3, h4⟩ := h p (by simp)
    simp only [List.map_cons]
    rw [parsePairs, pairTokens_pair _ _ h1 h2]
    simp only [h3, h4, ih (fun q hq => h q (by simp [hq]))]

/-! ## Claim theorems -/

/-- C10: the ingest-time timestamp sort is stable — for every feature list,
the samples of any fixed timestamp appear in `parse_geojson`'s output in
exactly their relative input order (Python's `list.sort` is documented
stable; the embedding uses the matching stable insertion sort), so the
encoded geometry is determined even when timestamps tie. -/
theorem parse_geojson_stable {α : Type} (feats : List (Feature α)) (t : String) :
    (parse_geojson feats).filter (fun p => p.time == t)
      = (feats.filterMap featPoint).filter (fun p => p.time == t) := by
  unfold parse_geojson
  exact filter_insertionSort _ t

/-- C6: `points_to_linestring` yields the null geometry for fewer than 2
samples; for 2 or more it yields exactly the specification's encoding —
each pair serialized as `"<lon> <lat>"` with the full `toStr` rendering of
the inputs (no rounding), pairs joined by `", "`, wrapped in the
`LINESTRING(...)` envelope; being a pure function of the sample list, the
encoding is stable. -/
theorem points_to_linestring_spec {α : Type} (toStr : α → List Char)
    (points : List (Pt α)) :
    (points.length < 2 → points_to_linestring toStr points = none) ∧
    (2 ≤ points.length →
      points_to_linestring toStr points = some (encodeSpec toStr points)) := by
  constructor
  · intro h
    simp [points_to_linestring, h]
  · intro h
    simp [points_to_linestring, encodeSpec, Nat.not_lt.mpr h]

/-- C1: for every sample sequence of length at least 2 whose coordinate
values render to well-behaved tokens that parse back exactly (the behavior
of Python's float repr/float() round-trip), decoding the encoded geometry
(`parse_linestring` applied to `points_to_linestring`) yields the `(lat, lon)`
pairs of the samples, in the same order. -/
theorem decode_encode_roundtrip {α : Type} (toStr : α → List Char)
    (pf : List Char → Option α) (points : List (Pt α))
    (hlen : 2 ≤ points.length) (hg : ∀ p ∈ points, GoodPt toStr pf p) :
    parse_linestring pf (points_to_linestring toStr points)
      = .ok (points.map (fun p => (p.lat, p.lon))) := by
  cases points with
  | nil => simp at hlen
  | cons p1 tl =>
    cases tl with
    | nil => simp at hlen
    | cons p2 rest =>
      have hchars : ∀ q ∈ (p1 :: p2 :: rest),
          ∀ c ∈ toStr q.lon ++ (' ' :: toStr q.lat), c ≠ ',' := by
        intro q hq c hc
        obtain ⟨g1, g2, _, _⟩ := hg q hq
        obtain ⟨_, haP⟩ := goodTok_props _ g1
        obtain ⟨_, hbP⟩ := goodTok_props _ g2
        rcases List.mem_append.mp hc with h | h
        · exact (haP c h).2
        · rcases List.mem_cons.mp h with rfl | h
          · decide
          · exact (hbP c h).2
      unfold points_to_linestring
      rw [if_neg (by simp only [List.length_cons]; omega)]
      simp only [parse_linestring]
      have hpre : ("LINESTRING(".data).isPrefixOf
          ("LINESTRING(".data ++
            joinSep (", ".data)
              ((p1 :: p2 :: rest).map (fun p => toStr p.lon ++ (' ' :: toStr p.lat)))
            ++ [')']) = true := by
        rw [List.append_assoc]
        exact isPrefixOf_self_append _ _
      have hemp : ("LINESTRING(".data ++
            joinSep (", ".data)
              ((p1 :: p2 :: rest).map (fun p => toStr p.lon ++ (' ' :: toStr p.lat)))
            ++ [')']).isEmpty = false := by
        rw [show ("LINESTRING(".data) = 'L' :: ("INESTRING(".data) from rfl]
        simp [List.cons_append, List.isEmpty]
      rw [if_neg (by simp [hpre, hemp])]
      have h11 : ("LINESTRING(".data).length = 11 := by decide
      rw [List.append_assoc, ← h11, List.drop_left, List.dropLast_concat]
      rw [List.map_cons]
      rw [splitOnSep_joinSep ',' [' '] _ _ (by
        intro u hu c hc
        rcases List.mem_cons.mp hu with rfl | h
        · exact hchars p1 (by simp) c hc
        · obtain ⟨q, hq, rfl⟩ := List.mem_map.mp h
          exact hchars q (by simp [List.mem_cons.mp hq]) c hc)]
      simpa using parsePairs_map toStr pf (p1 :: p2 :: rest) hg

/-- Witness for C1 at a concrete two-sample track. -/
theorem decode_encode_roundtrip_witness :
    parse_linestring pfNat (points_to_linestring natTok
        [(⟨10, 25, "2025-01-01T00:00"⟩ : Pt Nat), ⟨20, 26, "2025-01-02T00:00"⟩])
      = .ok [(25, 10), (26, 20)] :=
  decode_encode_roundtrip natTok pfNat
    [⟨10, 25, "2025-01-01T00:00"⟩, ⟨20, 26, "2025-01-02T00:00"⟩]
    (by decide) (by decide)

theorem parsePairs_cons_nil {α : Type} (pf : List Char → Option α)
    (pair : List Char) (rest : List (List Char)) (h : pairTokens pair = []) :
    parsePairs pf (pair :: rest) = parsePairs pf rest := by
  rw [parsePairs, h]

theorem parsePairs_cons_one {α : Type} (pf : List Char → Option α)
    (pair : List Char) (rest : List (List Char)) (p0 : List Char)
    (h : pairTokens pair = [p0]) :
    parsePairs pf (pair :: rest) = parsePairs pf rest := by
  rw [parsePairs, h]

theorem parsePairs_cons_two {α : Type} (pf : List Char → Option α)
    (pair : List Char) (rest : List (List Char)) (p0 p1 : List Char)
    (tl : List (List Char)) (h : pairTokens pair = p0 :: p1 :: tl) :
    parsePairs pf (pair :: rest)
      = match pf p0 with
        | none => .error ()
        | some lon =>
          match pf p1 with
          | none => .error ()
          | some lat =>
            match parsePairs pf rest with
            | .error e => .error e
            | .ok tail => .ok ((lat, lon) :: tail) := by
  rw [parsePairs, h]

theorem pairBad_two {α : Type} (pf : List Char → Option α) (pair : List Char)
    (p0 p1 : List Char) (tl : List (List Char)) (h : pairTokens pair = p0 :: p1 :: tl) :
    pairBad pf pair = ((pf p0).isNone || (pf p1).isNone) := by
  unfold pairBad
  rw [h]

theorem pairVal_two {α : Type} (pf : List Char → Option α) (pair : List Char)
    (p0 p1 : List Char) (tl : List (List Char)) (h : pairTokens pair = p0 :: p1 :: tl) :
    pairVal pf pair
      = match pf p0, pf p1 with
        | some lon, some lat => some (lat, lon)
        | _, _ => none := by
  unfold pairVal
  rw [h]

theorem pairVal_short {α : Type} (pf : List Char → Option α) (pair : List Char)
    (h : pairTokens pair = [] ∨ ∃ p0, pairTokens pair = [p0]) :
    pairVal pf pair = none := by
  unfold pairVal
  rcases h with h | ⟨p0, h⟩ <;> rw [h]

/-- Behavior of the decoder loop on arbitrary chunk lists: the decode
raises as soon as some chunk with at least two tokens has an unparseable
token among its first two; otherwise it succeeds, emitting the value of
every chunk with at least two tokens and silently dropping the others. -/
theorem parsePairs_spec {α : Type} (pf : List Char → Option α) :
    ∀ (pairs : List (List Char)),
      ((∃ p ∈ pairs, pairBad pf p = true) → parsePairs pf pairs = .error ()) ∧
      ((∀ p ∈ pairs, pairBad pf p = false) →
        parsePairs pf pairs = .ok (pairs.filterMap (pairVal pf))) := by
  intro pairs
  induction pairs with
  | nil =>
    exact ⟨by rintro ⟨p, hp, _⟩; simp at hp, fun _ => rfl⟩
  | cons pair rest ih =>
    constructor
    · rintro ⟨p, hp, hbad⟩
      rcases List.mem_cons.mp hp with rfl | hp'
      · cases ht : pairTokens p with
        | nil => rw [pairBad, ht] at hbad; simp at hbad
        | cons p0 tl =>
          cases tl with
          | nil => rw [pairBad, ht] at hbad; simp at hbad
          | cons p1 tl2 =>
            rw [pairBad_two pf p p0 p1 tl2 ht] at hbad
            rw [parsePairs_cons_two pf p rest p0 p1 tl2 ht]
            cases h0 : pf p0 with
            | none => rfl
            | some lon =>
              cases h1 : pf p1 with
              | none => rfl
              | some lat => rw [h0, h1] at hbad; simp at hbad
      · have herr := ih.1 ⟨p, hp', hbad⟩
        cases ht : pairTokens pair with
        | nil => rw [parsePairs_cons_nil pf pair rest ht]; exact herr
        | cons p0 tl =>
          cases tl with
          | nil => rw [parsePairs_cons_one pf pair rest p0 ht]; exact herr
          | cons p1 tl2 =>
            rw [parsePairs_cons_two pf pair rest p0 p1 tl2 ht]
            cases h0 : pf p0 with
            | none => rfl
            | some lon =>
              cases h1 : pf p1 with
              | none => rfl
              | some lat => rw [herr]
    · intro hall
      have hpair := hall pair (by simp)
      have hrest := ih.2 (fun q hq => hall q (by simp [hq]))
      rw [List.filterMap_cons]
      cases ht : pairTokens pair with
      | nil =>
        rw [parsePairs_cons_nil pf pair rest ht, pairVal_short pf pair (Or.inl ht)]
        exact hrest
      | cons p0 tl =>
        cases tl with
        | nil =>
          rw [parsePairs_cons_one pf pair rest p0 ht,
            pairVal_short pf pair (Or.inr ⟨p0, ht⟩)]
          exact hrest
        | cons p1 tl2 =>
          rw [pairBad_two pf pair p0 p1 tl2 ht] at hpair
          rw [parsePairs_cons_two pf pair rest p0 p1 tl2 ht,
            pairVal_two pf pair p0 p1 tl2 ht]
          cases h0 : pf p0 with
          | none => rw [h0] at hpair; simp at hpair
          | some lon =>
            cases h1 : pf p1 with
            | none => rw [h0, h1] at hpair; simp at hpair
            | some lat => rw [hrest]

/-- C4 counterexample: the decoder does not validate the closing-paren
suffix (first conjunct: the suffix is absent yet the result is non-empty),
and a chunk that does not split into two float tokens is silently dropped
rather than making the decode fail (second and third conjuncts: the
well-enveloped input has two delimiter-separated chunks but decodes without
error to a single pair). -/
theorem parse_linestring_contract_counterexample :
    parse_linestring pfNat (some ("LINESTRING(0 1, x".data)) = .ok [(1, 0)] ∧
    parse_linestring pfNat (some ("LINESTRING(0 1, x)".data)) = .ok [(1, 0)] ∧
    splitOnSep ',' [' '] ((("LINESTRING(0 1, x)".data).drop 11).dropLast)
      = ["0 1".data, "x".data] := by
  refine ⟨?_, ?_, ?_⟩ <;>
    simp [parse_linestring, splitOnSep, splitGo_cons, splitGo_nil, parsePairs,
      pairTokens, strip, isSpace, pfNat, isDigitCh, digitsToNat]

/-- C4 as amended: a null, empty, or non-`LINESTRING(`-prefixed input
decodes to the empty list (the closing suffix is not validated — the last
character is dropped unconditionally); when the prefix matches, a chunk
with at least two space-separated tokens whose first two do not both parse
makes the whole decode fail with an error the caller must catch, and
otherwise the decode succeeds, emitting the `(lat, lon)` value of every
chunk with at least two tokens while silently dropping chunks with fewer
than two tokens. -/
theorem parse_linestring_contract {α : Type} (pf : List Char → Option α)
    (w : List Char) :
    ((w.isEmpty || !(("LINESTRING(".data).isPrefixOf w)) = true →
      parse_linestring pf (some w) = .ok []) ∧
    (("LINESTRING(".data).isPrefixOf w = true →
      ((∃ p ∈ splitOnSep ',' [' '] ((w.drop 11).dropLast), pairBad pf p = true) →
        parse_linestring pf (some w) = .error ()) ∧
      ((∀ p ∈ splitOnSep ',' [' '] ((w.drop 11).dropLast), pairBad pf p = false) →
        parse_linestring pf (some w)
          = .ok ((splitOnSep ',' [' '] ((w.drop 11).dropLast)).filterMap (pairVal pf)))) := by
  constructor
  · intro h
    simp only [parse_linestring]
    rw [if_pos h]
  · intro hpre
    have hemp : w.isEmpty = false := by
      cases w with
      | nil => exact absurd hpre (by decide)
      | cons c cs => rfl
    have hcond : (w.isEmpty || !(("LINESTRING(".data).isPrefixOf w)) = false := by
      rw [hemp, hpre]
      rfl
    constructor
    · intro hex
      simp only [parse_linestring]
      rw [if_neg (by rw [hcond]; simp)]
      exact (parsePairs_spec pf _).1 hex
    · intro hall
      simp only [parse_linestring]
      rw [if_neg (by rw [hcond]; simp)]
      exact (parsePairs_spec pf _).2 hall

/-- Witness for C4's amended contract at concrete inputs. -/
theorem parse_linestring_contract_witness :
    parse_linestring pfNat (some ("bogus".data)) = .ok [] ∧
    parse_linestring pfNat (some ("LINESTRING(1 2, 3 4)".data))
      = .ok ((splitOnSep ',' [' ']
          ((("LINESTRING(1 2, 3 4)".data).drop 11).dropLast)).filterMap (pairVal pfNat)) :=
  ⟨(parse_linestring_contract pfNat ("bogus".data)).1 (by decide),
   ((parse_linestring_contract pfNat ("LINESTRING(1 2, 3 4)".data)).2 (by decide)).2 (by
      intro p hp
      simp only [splitOnSep] at hp
      simp [splitGo_cons, splitGo_nil] at hp
      rcases hp with rfl | rfl <;>
        simp [pairBad, pairTokens, splitOnSep, splitGo_cons, splitGo_nil, strip,
          isSpace, pfNat, isDigitCh])⟩

theorem handle_existing_absent (db : DB) (n r : String) (y : Int) (force : Bool)
    (h : check_existing db n r y = false) :
    handle_existing db n r y force = some db := by
  unfold handle_existing
  rw [h]
  simp

theorem handle_existing_skip (db : DB) (n r : String) (y : Int)
    (h : check_existing db n r y = true) :
    handle_existing db n r y false = none := by
  unfold handle_existing
  rw [h]
  simp

theorem handle_existing_force (db : DB) (n r : String) (y : Int)
    (h : check_existing db n r y = true) :
    handle_existing db n r y true = some (deleteTriple db n r y) := by
  unfold handle_existing
  rw [h]
  simp

/-- C2 counterexample: with override (force) enabled and a record already
stored for the identity, an input yielding zero valid samples makes the
ingest fail with the no-valid-points outcome but does not leave the store
as it was: the pre-existing record has already been deleted. -/
theorem import_no_valid_points_counterexample :
    Gdac.import_deployment natTok bassDB bassEmptyFile true = .ok (.failed, ⟨[], 2⟩) ∧
    bassDB.recs ≠ [] := by
  exact ⟨rfl, by decide⟩

/-- C2 as amended: an ingest whose input parses but yields zero valid
samples never writes a record; with the identity absent it fails with the
no-valid-points outcome and leaves the store unchanged; with the identity
present it skips (duplicate outcome, before parsing) when override is off,
and when override is on it fails with the no-valid-points outcome after the
pre-existing record has been deleted. -/
theorem import_no_valid_points {α : Type} (toStr : α → List Char) (db : DB)
    (f : Gdac.GFile α) (force : Bool) (n r : String) (y : Int)
    (feats : List (Feature α))
    (hm : Gdac.extract_metadata f.stem f.parentDir = some (n, r, y))
    (hc : f.content = some feats)
    (hz : parse_geojson feats = []) :
    (check_existing db n r y = false →
      Gdac.import_deployment toStr db f force = .ok (.failed, db)) ∧
    (check_existing db n r y = true → force = false →
      Gdac.import_deployment toStr db f force = .ok (.skipped, db)) ∧
    (check_existing db n r y = true → force = true →
      Gdac.import_deployment toStr db f force = .ok (.failed, deleteTriple db n r y)) := by
  refine ⟨?_, ?_, ?_⟩
  · intro h1
    unfold Gdac.import_deployment
    rw [hm]
    dsimp only
    rw [handle_existing_absent db n r y force h1]
    dsimp only
    rw [hc]
    dsimp only
    rw [hz]
  · intro h1 h2
    subst h2
    unfold Gdac.import_deployment
    rw [hm]
    dsimp only
    rw [handle_existing_skip db n r y h1]
  · intro h1 h2
    subst h2
    unfold Gdac.import_deployment
    rw [hm]
    dsimp only
    rw [handle_existing_force db n r y h1]
    dsimp only
    rw [hc]
    dsimp only
    rw [hz]

/-- Witness for C2's amended statement at a concrete input. -/
theorem import_no_valid_points_witness :
    check_existing ⟨[], 1⟩ "bass-20250601T0000" "GoM" 2025 = false ∧
    Gdac.import_deployment natTok ⟨[], 1⟩ bassEmptyFile false = .ok (.failed, ⟨[], 1⟩) :=
  ⟨rfl,
   (import_no_valid_points natTok ⟨[], 1⟩ bassEmptyFile false
      "bass-20250601T0000" "GoM" 2025 [] rfl rfl rfl).1 rfl⟩

/-- After a call that reports the inserted outcome, the store contains a
record with the call's identity triple. -/
theorem import_inserted_check {α : Type} (toStr : α → List Char) (db db' : DB)
    (f : Gdac.GFile α) (force : Bool) (n r : String) (y : Int)
    (hm : Gdac.extract_metadata f.stem f.parentDir = some (n, r, y))
    (h : Gdac.import_deployment toStr db f force = .ok (.inserted, db')) :
    check_existing db' n r y = true := by
  unfold Gdac.import_deployment at h
  rw [hm] at h
  dsimp only at h
  cases hh : handle_existing db n r y force with
  | none => rw [hh] at h; simp at h
  | some db1 =>
    rw [hh] at h
    dsimp only at h
    cases hcf : f.content with
    | none => rw [hcf] at h; simp at h
    | some feats =>
      rw [hcf] at h
      dsimp only at h
      cases hp : parse_geojson feats with
      | nil => rw [hp] at h; simp at h
      | cons p0 rest =>
        rw [hp] at h
        dsimp only at h
        simp only [Except.ok.injEq, Prod.mk.injEq, true_and] at h
        rw [← h]
        unfold check_existing insertRecord
        simp

/-- C5: when a first ingest call has inserted a record for an identity
triple and a second call with the same triple runs with override disabled,
the second call reports the duplicate-skip outcome (distinct from the
failure outcome) and returns the store unchanged. -/
theorem duplicate_skip {α : Type} (toStr : α → List Char) (db db₁ : DB)
    (f1 f2 : Gdac.GFile α) (n r : String) (y : Int)
    (hm1 : Gdac.extract_metadata f1.stem f1.parentDir = some (n, r, y))
    (hm2 : Gdac.extract_metadata f2.stem f2.parentDir = some (n, r, y))
    (h1 : Gdac.import_deployment toStr db f1 false = .ok (.inserted, db₁)) :
    Gdac.import_deployment toStr db₁ f2 false = .ok (.skipped, db₁) ∧
    Outcome.skipped ≠ Outcome.failed := by
  have hex := import_inserted_check toStr db db₁ f1 false n r y hm1 h1
  refine ⟨?_, by decide⟩
  unfold Gdac.import_deployment
  rw [hm2]
  dsimp only
  rw [handle_existing_skip db₁ n r y hex]

/-- Witness for C5 at a concrete pair of calls. -/
theorem duplicate_skip_witness :
    Gdac.import_deployment natTok bassTrackDB bassTrackFile false
      = .ok (.skipped, bassTrackDB) ∧
    Outcome.skipped ≠ Outcome.failed :=
  duplicate_skip natTok ⟨[], 1⟩ bassTrackDB bassTrackFile bassTrackFile
    "bass-20250601T0000" "GoM" 2025 rfl rfl rfl

/-- A call on a file whose contents parse never raises: it always reports
one of the four outcomes. -/
theorem import_deployment_total {α : Type} (toStr : α → List Char) (db : DB)
    (f : Gdac.GFile α) (force : Bool) (h : f.content ≠ none) :
    ∃ o db', Gdac.import_deployment toStr db f force = .ok (o, db') := by
  unfold Gdac.import_deployment
  cases hm : Gdac.extract_metadata f.stem f.parentDir with
  | none => exact ⟨.invalid, db, rfl⟩
  | some trip =>
    obtain ⟨n, r, y⟩ := trip
    dsimp only
    cases hh : handle_existing db n r y force with
    | none => exact ⟨.skipped, db, rfl⟩
    | some db1 =>
      dsimp only
      cases hcf : f.content with
      | none => exact absurd hcf h
      | some feats =>
        dsimp only
        cases hp : parse_geojson feats with
        | nil => exact ⟨.failed, db1, rfl⟩
        | cons p0 rest => exact ⟨.inserted, _, rfl⟩

theorem importFiles_cons {α : Type} (toStr : α → List Char) (force : Bool)
    (db : DB) (s : Stats) (f : Gdac.GFile α) (fs : List (Gdac.GFile α)) :
    Gdac.importFiles toStr force db s (f :: fs)
      = match Gdac.import_deployment toStr db f force with
        | .error e => .error e
        | .ok (o, db2) => Gdac.importFiles toStr force db2 (bumpStats s o) fs := rfl

theorem importFiles_ok {α : Type} (toStr : α → List Char) (force : Bool) :
    ∀ (files : List (Gdac.GFile α)) (db : DB) (s : Stats),
      (∀ f ∈ files, f.content ≠ none) →
      ∃ s' db', Gdac.importFiles toStr force db s files = .ok (s', db') ∧
        s'.inserted + s'.skipped + s'.invalid + s'.errors
          = s.inserted + s.skipped + s.invalid + s.errors + files.length := by
  intro files
  induction files with
  | nil => exact fun db s _ => ⟨s, db, rfl, by simp⟩
  | cons f fs ih =>
    intro db s hall
    obtain ⟨o, db', ho⟩ := import_deployment_total toStr db f force (hall f (by simp))
    obtain ⟨s', db'', hrec, hsum⟩ := ih db' (bumpStats s o) (fun g hg => hall g (by simp [hg]))
    refine ⟨s', db'', ?_, ?_⟩
    · rw [importFiles_cons, ho]
      exact hrec
    · rw [hsum]
      cases o <;> simp [bumpStats] <;> omega

/-- C9 as amended: when every file in the batch has readable, parseable
contents, the loop processes each file, aggregating the four per-file
outcomes into the summary counters (which then total the number of files)
without ever aborting; a file whose contents cannot be parsed, however,
raises an exception that aborts the whole batch (see the counterexample). -/
theorem import_directory_aggregates {α : Type} (toStr : α → List Char) (db : DB)
    (files : List (Gdac.GFile α)) (force : Bool)
    (h : ∀ f ∈ files, f.content ≠ none) :
    ∃ stats db', Gdac.import_directory toStr db files force = .ok (stats, db') ∧
      stats.inserted + stats.skipped + stats.invalid + stats.errors = files.length := by
  obtain ⟨s', db', hrun, hsum⟩ := importFiles_ok toStr force files db ⟨0, 0, 0, 0⟩ h
  exact ⟨s', db', hrun, by simpa using hsum⟩

/-- C9 counterexample: a batch whose first file has unparseable contents
aborts as a whole — the following file, which on its own yields a counted
no-valid-points failure, is never processed or counted. -/
theorem import_directory_abort_counterexample :
    Gdac.import_directory natTok ⟨[], 1⟩ [badJsonFile, emptyOkFile] false = .error () ∧
    Gdac.import_directory natTok ⟨[], 1⟩ [emptyOkFile] false
      = .ok (⟨0, 0, 0, 1⟩, ⟨[], 1⟩) :=
  ⟨rfl, rfl⟩

/-- Witness for C9's amended statement at a concrete batch. -/
theorem import_directory_aggregates_witness :
    (∀ f ∈ [emptyOkFile, bassTrackFile], f.content ≠ none) ∧
    ∃ stats db',
      Gdac.import_directory natTok ⟨[], 1⟩ [emptyOkFile, bassTrackFile] false
        = .ok (stats, db') ∧
      stats.inserted + stats.skipped + stats.invalid + stats.errors = 2 := by
  refine ⟨by decide, ?_⟩
  simpa using import_directory_aggregates natTok ⟨[], 1⟩
    [emptyOkFile, bassTrackFile] false (by decide)

/-- Reduction of `json2duckdb.py`'s `import_deployment` on the successful
insert path. -/
theorem j2d_insert_eq {α : Type} (toStr : α → List Char) (db : DB) (f : J2D.JFile α)
    (force : Bool) (n r : String) (y : Int) (feats : List (Feature α))
    (p0 : Pt α) (rest : List (Pt α))
    (hm : J2D.extract_metadata f = .ok (n, r, y))
    (hc : f.content = some feats)
    (hp : parse_geojson feats = p0 :: rest)
    (hnx : check_existing db n r y = false) :
    J2D.import_deployment toStr db f force
      = .ok (some true, insertRecord db n r y (some p0.time)
          (some (((p0 :: rest).getLastD p0).time))
          (points_to_linestring toStr (p0 :: rest))) := by
  unfold J2D.import_deployment
  rw [hm]
  dsimp only
  rw [handle_existing_absent db n r y force hnx]
  dsimp only
  rw [hc]
  dsimp only
  rw [hp]

/-- C3 counterexample: ingesting a file with exactly one valid sample
writes a record whose `geometry` is null while `start_time` and `end_time`
are both set — the all-null-together-or-all-non-null-together invariant does
not hold of the store. -/
theorem ingest_partial_record_counterexample :
    J2D.import_deployment natTok ⟨[], 1⟩ oneSampleFile false
      = .ok (some true, ⟨[⟨1, "bass", "GoM", 2025,
          some "2025-06-01T00:00", some "2025-06-01T00:00", none⟩], 2⟩) ∧
    (⟨1, "bass", "GoM", 2025, some "2025-06-01T00:00", some "2025-06-01T00:00",
        none⟩ : Record).geometry = none ∧
    (⟨1, "bass", "GoM", 2025, some "2025-06-01T00:00", some "2025-06-01T00:00",
        none⟩ : Record).start_time ≠ none ∧
    (⟨1, "bass", "GoM", 2025, some "2025-06-01T00:00", some "2025-06-01T00:00",
        none⟩ : Record).end_time ≠ none :=
  ⟨rfl, rfl, by decide, by decide⟩

/-- C3 as amended: every record the ingest writes has `start_time` and
`end_time` non-null, and its `geometry` is null exactly when a single valid
sample survived filtering (null geometry with set timestamps is reachable);
with two or more samples all three fields are non-null. -/
theorem ingest_record_nullness {α : Type} (toStr : α → List Char) (db : DB)
    (f : J2D.JFile α) (force : Bool) (n r : String) (y : Int)
    (feats : List (Feature α)) (p0 : Pt α) (rest : List (Pt α))
    (hm : J2D.extract_metadata f = .ok (n, r, y))
    (hc : f.content = some feats)
    (hp : parse_geojson feats = p0 :: rest)
    (hnx : check_existing db n r y = false) :
    ∃ rec, J2D.import_deployment toStr db f force
        = .ok (some true, ⟨db.recs ++ [rec], db.seq + 1⟩) ∧
      rec.start_time = some p0.time ∧
      rec.end_time = some (((p0 :: rest).getLastD p0).time) ∧
      (rec.geometry = none ↔ rest = []) := by
  refine ⟨⟨db.seq, n, r, y, some p0.time, some (((p0 :: rest).getLastD p0).time),
      points_to_linestring toStr (p0 :: rest)⟩, ?_, rfl, rfl, ?_⟩
  · rw [j2d_insert_eq toStr db f force n r y feats p0 rest hm hc hp hnx]
    rfl
  · unfold points_to_linestring
    simp only [List.length_cons]
    constructor
    · intro h
      by_contra hne
      rw [if_neg (by
        have hpos : 0 < rest.length := List.length_pos.mpr hne
        omega)] at h
      exact Option.some_ne_none _ h
    · intro h
      subst h
      rw [if_pos (by simp)]

/-- Witness for C3's amended statement at a concrete one-sample input. -/
theorem ingest_record_nullness_witness :
    ∃ rec, J2D.import_deployment natTok ⟨[], 1⟩ oneSampleFile false
        = .ok (some true, ⟨[] ++ [rec], 1 + 1⟩) ∧
      rec.start_time = some "2025-06-01T00:00" ∧
      rec.end_time = some "2025-06-01T00:00" ∧
      (rec.geometry = none ↔ ([] : List (Pt Nat)) = []) :=
  ingest_record_nullness natTok ⟨[], 1⟩ oneSampleFile false "bass" "GoM" 2025
    [⟨true, [10, 25], some "2025-06-01T00:00"⟩] ⟨10, 25, "2025-06-01T00:00"⟩ []
    rfl rfl rfl rfl

/-- C7: the ingest sorts the retained samples by lexical (string)
comparison of their timestamps — the list used for the record is an
ordered-by-`timeLE` permutation of the filtered samples — and the written
record takes `start_time` from the first and `end_time` from the last
sample of that sorted order, with the geometry encoding that order. -/
theorem ingest_sorts_by_timestamp {α : Type} (toStr : α → List Char) (db : DB)
    (f : J2D.JFile α) (force : Bool) (n r : String) (y : Int)
    (feats : List (Feature α)) (p0 : Pt α) (rest : List (Pt α))
    (hm : J2D.extract_metadata f = .ok (n, r, y))
    (hc : f.content = some feats)
    (hp : parse_geojson feats = p0 :: rest)
    (hnx : check_existing db n r y = false) :
    (p0 :: rest).Pairwise timeLE ∧
    (p0 :: rest).Perm (feats.filterMap featPoint) ∧
    J2D.import_deployment toStr db f force
      = .ok (some true, insertRecord db n r y (some p0.time)
          (some (((p0 :: rest).getLastD p0).time))
          (points_to_linestring toStr (p0 :: rest))) := by
  refine ⟨?_, ?_, j2d_insert_eq toStr db f force n r y feats p0 rest hm hc hp hnx⟩
  · rw [← hp]
    exact List.sorted_insertionSort timeLE (feats.filterMap featPoint)
  · rw [← hp]
    exact List.perm_insertionSort timeLE (feats.filterMap featPoint)

/-- Witness for C7 at a concrete input whose two samples arrive in reverse
chronological order: the encoded track reorders them chronologically. -/
theorem ingest_sorts_by_timestamp_witness :
    ([(⟨3, 4, "a"⟩ : Pt Nat), ⟨1, 2, "b"⟩]).Pairwise timeLE ∧
    ([(⟨3, 4, "a"⟩ : Pt Nat), ⟨1, 2, "b"⟩]).Perm
      ([(⟨true, [1, 2], some "b"⟩ : Feature Nat),
        ⟨true, [3, 4], some "a"⟩].filterMap featPoint) ∧
    J2D.import_deployment natTok ⟨[], 1⟩ twoSampleFile false
      = .ok (some true, insertRecord ⟨[], 1⟩ "bass" "GoM" 2025 (some "a") (some "b")
          (points_to_linestring natTok [⟨3, 4, "a"⟩, ⟨1, 2, "b"⟩])) :=
  ingest_sorts_by_timestamp natTok ⟨[], 1⟩ twoSampleFile false "bass" "GoM" 2025
    [⟨true, [1, 2], some "b"⟩, ⟨true, [3, 4], some "a"⟩]
    ⟨3, 4, "a"⟩ [⟨1, 2, "b"⟩] rfl rfl rfl rfl

theorem lookup_enumFrom (g : Nat → String) :
    ∀ (s : List Int), s.Nodup → ∀ (n i : Nat) (hi : i < s.length),
      List.lookup (s.get ⟨i, hi⟩) ((List.enumFrom n s).map (fun p => (p.2, g p.1)))
        = some (g (n + i)) := by
  intro s
  induction s with
  | nil => intro _ n i hi; simp at hi
  | cons a as ih =>
    intro hnd n i hi
    rw [List.enumFrom_cons, List.map_cons]
    cases i with
    | zero => simp [List.lookup_cons]
    | succ j =>
      have hj : j < as.length := by simpa using hi
      have hmem : as.get ⟨j, hj⟩ ∈ as := List.get_mem as j hj
      have hne : ((a :: as).get ⟨j + 1, hi⟩ == a) = false := by
        rw [show (a :: as).get ⟨j + 1, hi⟩ = as.get ⟨j, hj⟩ from rfl]
        exact beq_eq_false_iff_ne.mpr
          (fun e => (List.nodup_cons.mp hnd).1 (e ▸ hmem))
      rw [List.lookup_cons, hne]
      show List.lookup ((a :: as).get ⟨j + 1, hi⟩)
          ((List.enumFrom (n + 1) as).map (fun p => (p.2, g p.1)))
        = some (g (n + (j + 1)))
      rw [show (a :: as).get ⟨j + 1, hi⟩ = as.get ⟨j, hj⟩ from rfl]
      rw [ih (List.nodup_cons.mp hnd).2 (n + 1) j hj]
      exact congrArg (fun k => some (g k)) (by omega)

theorem lookup_enumFrom_none (g : Nat → String) :
    ∀ (s : List Int) (y : Int), y ∉ s → ∀ n,
      List.lookup y ((List.enumFrom n s).map (fun p => (p.2, g p.1))) = none := by
  intro s
  induction s with
  | nil => intro y _ n; rfl
  | cons a as ih =>
    intro y hy n
    rw [List.enumFrom_cons, List.map_cons, List.lookup_cons]
    have hne : (y == a) = false :=
      beq_eq_false_iff_ne.mpr (fun e => hy (by simp [e]))
    rw [hne]
    show List.lookup y ((List.enumFrom (n + 1) as).map (fun p => (p.2, g p.1))) = none
    exact ih y (fun h => hy (by simp [h])) (n + 1)

/-- C8: the color assignment depends only on the set of years — any two
duplicate-free enumerations of the same years produce the same mapping —
and it maps the year at ascending-sorted index `i` to palette entry
`i mod 7`; a year absent from the mapping falls back to the fixed neutral
gray `#999999` when a track is styled. -/
theorem generate_year_colors_spec (ys ys' : List Int) (hperm : ys.Perm ys')
    (hnd : ys.Nodup) :
    generate_year_colors ys = generate_year_colors ys' ∧
    (∀ (i : Nat) (hi : i < (List.insertionSort (fun a b : Int => a ≤ b) ys).length),
      List.lookup ((List.insertionSort (fun a b : Int => a ≤ b) ys).get ⟨i, hi⟩)
        (generate_year_colors ys) = some (paletteColor i)) ∧
    (∀ y : Int, y ∉ ys → colorFor (generate_year_colors ys) y = "#999999") := by
  have hsorteq : List.insertionSort (fun a b : Int => a ≤ b) ys
      = List.insertionSort (fun a b : Int => a ≤ b) ys' :=
    List.eq_of_perm_of_sorted
      ((List.perm_insertionSort _ ys).trans
        (hperm.trans (List.perm_insertionSort _ ys').symm))
      (List.sorted_insertionSort _ ys) (List.sorted_insertionSort _ ys')
  refine ⟨?_, ?_, ?_⟩
  · unfold generate_year_colors
    rw [hsorteq]
  · intro i hi
    have hnd' : (List.insertionSort (fun a b : Int => a ≤ b) ys).Nodup :=
      ((List.perm_insertionSort _ ys).nodup_iff).mpr hnd
    have := lookup_enumFrom paletteColor _ hnd' 0 i hi
    unfold generate_year_colors
    rw [show List.enum (List.insertionSort (fun a b : Int => a ≤ b) ys)
        = List.enumFrom 0 (List.insertionSort (fun a b : Int => a ≤ b) ys) from rfl]
    simpa using this
  · intro y hy
    unfold colorFor generate_year_colors
    rw [show List.enum (List.insertionSort (fun a b : Int => a ≤ b) ys)
        = List.enumFrom 0 (List.insertionSort (fun a b : Int => a ≤ b) ys) from rfl]
    rw [lookup_enumFrom_none paletteColor _ y
      (fun hmem => hy ((List.perm_insertionSort _ ys).mem_iff.mp hmem)) 0]
    rfl

/-- Witness for C8 on the specification's own example year set, enumerated
in two different orders. -/
theorem generate_year_colors_spec_witness :
    generate_year_colors [2021, 2023, 2022] = generate_year_colors [2023, 2022, 2021] ∧
    (∀ (i : Nat)
      (hi : i < (List.insertionSort (fun a b : Int => a ≤ b) [2021, 2023, 2022]).length),
      List.lookup
        ((List.insertionSort (fun a b : Int => a ≤ b) [2021, 2023, 2022]).get ⟨i, hi⟩)
        (generate_year_colors [2021, 2023, 2022]) = some (paletteColor i)) ∧
    (∀ y : Int, y ∉ [(2021 : Int), 2023, 2022] →
      colorFor (generate_year_colors [2021, 2023, 2022]) y = "#999999") :=
  generate_year_colors_spec [2021, 2023, 2022] [2023, 2022, 2021]
    (by decide) (by decide)

/-- Witness for C6 at concrete inputs. -/
theorem points_to_linestring_spec_witness :
    points_to_linestring natTok [(⟨1, 2, "a"⟩ : Pt Nat)] = none ∧
    points_to_linestring natTok [(⟨1, 2, "a"⟩ : Pt Nat), ⟨3, 4, "b"⟩]
      = some (encodeSpec natTok [(⟨1, 2, "a"⟩ : Pt Nat), ⟨3, 4, "b"⟩]) :=
  ⟨(points_to_linestring_spec natTok [⟨1, 2, "a"⟩]).1 (by decide),
   (points_to_linestring_spec natTok [⟨1, 2, "a"⟩, ⟨3, 4, "b"⟩]).2 (by decide)⟩

end Gdamm
